import Mathlib

/-!
Verification of the PgOkache frontend (src/frontend/src/App.tsx) against its
specification. The TypeScript client code is embedded shallowly: JS numbers
used as integers become Int or Nat, JS floats become ℚ, JS objects used as
keyed records become association lists over Nat keys, and DOM rendering is
reduced to the pure functions that compute the displayed data. Timestamps
(ISO strings in the wire format) are modelled as naturals ordered
chronologically. The backend Setup Checker is not part of the repository
sources; where a claim depends on it, a definition modelled from the spec is
used and marked as such.
-/

namespace PgOkache

/-- One normalized query row of a snapshot, mirroring the QueryStat type of
App.tsx (lines 35 to 46). Counter fields are Int, time fields are ℚ. -/
structure QueryStat where
  queryid : String
  query_norm : String
  calls : Int
  total_time_ms : ℚ
  mean_time_ms : ℚ
  rows : Int
  shared_blks_read : Int
  shared_blks_hit : Int
  temp_blks_written : Int
  wal_bytes : Int
deriving DecidableEq

/-- An immutable snapshot, mirroring the Snapshot type of App.tsx (lines 48
to 53); captured_at is modelled as a natural number timestamp. -/
structure Snapshot where
  id : Nat
  «instance» : Nat
  captured_at : Nat
  query_stats : List QueryStat
deriving DecidableEq

/-- A stored readiness verdict, mirroring the SetupState type of App.tsx
(lines 15 to 23); last_checked_at is modelled as a natural number. -/
structure SetupState where
  id : Nat
  «instance» : Nat
  pg_version_num : Option Int
  preload_ok : Bool
  ext_created : Bool
  ready : Bool
  last_checked_at : Nat
deriving DecidableEq

/-- The result of a check_setup call, mirroring the SetupInfo type of
App.tsx (lines 25 to 33). The heterogeneous checks map is modelled as
string keys with optional boolean outcomes (null when a probe is skipped). -/
structure SetupInfo where
  status : String
  ready : Bool
  pg_version_num : Int
  preload_ok : Bool
  ext_created : Bool
  checks : List (String × Option Bool)
  params : List (String × String)
deriving DecidableEq

/-- A recommendation, mirroring the Recommendation type of App.tsx (lines 55
to 66); the numeric score is modelled as ℚ. -/
structure Recommendation where
  id : Nat
  «instance» : Nat
  type : String
  title : String
  details : String
  sql : String
  confidence : String
  score : ℚ
  status : String
  created_at : Nat
deriving DecidableEq

/-- A parsed non-2xx response body: the optional detail string field. The
client parses the body with res.json().catch(() => null), so the body as a
whole is also optional at use sites. -/
structure ErrorBody where
  detail : Option String
deriving DecidableEq

/-- Outcome of the read-only probes the Setup Checker runs against a target
instance. Modelled from the spec: the backend Setup Checker itself is not
under src/, only its SetupInfo result type and its caller are; spec section
4.1 fixes the probe steps and the classification. -/
structure SetupProbe where
  conn_ok : Bool
  perm_denied : Bool
  pg_version_num : Int
  preload_ok : Bool
  ext_created : Bool
  params : List (String × String)
deriving DecidableEq

/-- Modelled from the spec: the check_setup operation of the backend Setup
Checker, which is missing from src/. Per spec section 4.1, a failed
connection reports CONNECTION_FAILED with no further checks attempted, a
permission failure reports PERMISSION_DENIED, and otherwise the status
classifies which probe failed first, with ready = preload_ok AND
ext_created. -/
def checkSetup (p : SetupProbe) : SetupInfo :=
  if p.conn_ok = false then
    ⟨"CONNECTION_FAILED", false, 0, false, false,
      [("connect", some false), ("preload_ok", none), ("ext_created", none)], []⟩
  else if p.perm_denied = true then
    ⟨"PERMISSION_DENIED", false, p.pg_version_num, false, false,
      [("connect", some true), ("preload_ok", none), ("ext_created", none)], []⟩
  else
    ⟨if p.preload_ok = false then "PRELOAD_MISSING"
      else if p.ext_created = false then "EXTENSION_MISSING" else "READY",
      p.preload_ok && p.ext_created, p.pg_version_num, p.preload_ok, p.ext_created,
      [("connect", some true), ("preload_ok", some p.preload_ok),
        ("ext_created", some p.ext_created)], p.params⟩

/-- The pgMajorVersion helper of App.tsx (lines 91 to 94): null and 0 (both
falsy in JS) give null, otherwise Math.floor(versionNum / 10000). JS float
division followed by Math.floor is exactly floor division, Int.fdiv. -/
def pgMajorVersion : Option Int → Option Int
  | none => none
  | some versionNum => if versionNum = 0 then none else some (Int.fdiv versionNum 10000)

/-- The pgConfigName helper of App.tsx (lines 96 to 99): null and 0 give
the default name, and the version conditional returns the same string in
both branches. -/
def pgConfigName : Option Int → String
  | none => "postgresql.conf"
  | some major =>
    if major = 0 then "postgresql.conf"
    else if 12 ≤ major then "postgresql.conf" else "postgresql.conf"

/-- The decimal digit character for n mod 10. -/
def digitChar (n : Nat) : Char := Char.ofNat (48 + n % 10)

/-- Decimal digits of n in reverse order, with explicit fuel so that the
recursion is structural; fuel n is always sufficient since n / 10 < n. -/
def natDigitsAux : Nat → Nat → List Char
  | _, 0 => []
  | 0, _ + 1 => []
  | fuel + 1, n + 1 => digitChar (n + 1) :: natDigitsAux fuel ((n + 1) / 10)

/-- Decimal digit characters of a natural number, most significant first. -/
def natDigits (n : Nat) : List Char :=
  if n = 0 then ['0'] else (natDigitsAux n n).reverse

/-- Walks a reversed digit list and inserts a comma before every third
digit, counting from the least significant end. -/
def group3Aux : List Char → Nat → List Char
  | [], _ => []
  | c :: rest, i => (if i ≠ 0 ∧ i % 3 = 0 then [','] else []) ++ c :: group3Aux rest (i + 1)

/-- Digit characters of n with thousands separators, as produced by the
default Intl.NumberFormat used in App.tsx line 108. -/
def groupedDigitsList (n : Nat) : List Char :=
  (group3Aux (natDigits n).reverse 0).reverse

/-- The formatNumber helper of App.tsx (lines 106 to 109): the em-dash
placeholder for null or undefined, and Intl.NumberFormat grouping
otherwise. -/
def formatNumber : Option Int → String
  | none => "—"
  | some v => String.mk ((if v < 0 then ['-'] else []) ++ groupedDigitsList v.natAbs)

/-- The JS Number.prototype.toFixed(1) rendering used in App.tsx line 113:
round to the nearest tenth, ties towards the larger value, then print with
one digit after the decimal point. -/
def toFixed1 (q : ℚ) : String :=
  let n : Int := ⌊q * 10 + 1 / 2⌋
  String.mk ((if n < 0 then ['-'] else []) ++
    natDigits (n.natAbs / 10) ++ '.' :: natDigits (n.natAbs % 10))

/-- The formatMs helper of App.tsx (lines 111 to 114): the em-dash
placeholder for null or undefined, and toFixed(1) suffixed by the unit
otherwise. -/
def formatMs : Option ℚ → String
  | none => "—"
  | some v => toFixed1 v ++ " ms"

/-- One step of the JS forEach loops in loadSetupStates and loadSnapshots
(App.tsx lines 169 to 173 and 186 to 190): insert under the key only when
the key is not yet present in the record. The JS object is modelled as an
association list queried with List.lookup. -/
def firstByKey {α : Type} (key : α → Nat) (next : List (Nat × α)) (s : α) : List (Nat × α) :=
  if (List.lookup (key s) next).isNone then next ++ [(key s, s)] else next

/-- The record built by iterating firstByKey over the fetched data starting
from the empty object. -/
def buildRecord {α : Type} (key : α → Nat) (data : List α) : List (Nat × α) :=
  data.foldl (firstByKey key) []

/-- The record built by loadSnapshots (App.tsx lines 180 to 195) from the
response of the snapshots endpoint, keyed by instance id. -/
def loadSnapshots (data : List Snapshot) : List (Nat × Snapshot) :=
  buildRecord (fun s => s.«instance») data

/-- The record built by loadSetupStates (App.tsx lines 163 to 178) from the
response of the setup-states endpoint, keyed by instance id. -/
def loadSetupStates (data : List SetupState) : List (Nat × SetupState) :=
  buildRecord (fun s => s.«instance») data

/-- Replaces the value stored under k, appending a new entry when k is
absent; models assignment to a JS object property. -/
def assocSet {α : Type} (k : Nat) (v : α) : List (Nat × α) → List (Nat × α)
  | [] => [(k, v)]
  | (k0, v0) :: rest => if k0 == k then (k, v) :: rest else (k0, v0) :: assocSet k v rest

/-- One step of the JS forEach loop in loadRecommendations (App.tsx lines
203 to 208): create an empty list for an unseen key, then push the element
onto the list stored under the key. -/
def pushByKey {α : Type} (key : α → Nat) (next : List (Nat × List α)) (s : α) :
    List (Nat × List α) :=
  assocSet (key s) ((List.lookup (key s) next).getD [] ++ [s]) next

/-- The keyed record of lists built by iterating pushByKey over the fetched
data starting from the empty object. -/
def groupByKey {α : Type} (key : α → Nat) (data : List α) : List (Nat × List α) :=
  data.foldl (pushByKey key) []

/-- The in-place sort of App.tsx line 210, list.sort((a, b) => b.score -
a.score): sort each group so that scores are non-increasing. -/
def sortByScoreDesc (l : List Recommendation) : List Recommendation :=
  l.mergeSort (fun a b => b.score ≤ a.score)

/-- The record built by loadRecommendations (App.tsx lines 197 to 216):
group the response by instance id preserving response order, then sort each
group by descending score. -/
def loadRecommendations (data : List Recommendation) : List (Nat × List Recommendation) :=
  (groupByKey (fun r => r.«instance») data).map (fun p => (p.1, sortByScoreDesc p.2))

/-- The rows the snapshot table renders, App.tsx line 639:
selectedSnapshot.query_stats.slice(0, 8). -/
def displayedQueryStats (snap : Snapshot) : List QueryStat :=
  snap.query_stats.take 8

/-- The error message surfaced for a non-2xx response, App.tsx lines 240 to
243, 266 to 269, 288 to 291 and 309 to 312: detail?.detail ?? fallback,
where detail is the parsed body or null when parsing failed. -/
def surfacedError (body : Option ErrorBody) (fallback : String) : String :=
  match body with
  | some b =>
    match b.detail with
    | some d => d
    | none => fallback
  | none => fallback

/-- The message thrown by handleSubmit (create) on a non-2xx response,
App.tsx line 242. -/
def createErrorMessage (body : Option ErrorBody) : String :=
  surfacedError body "Unable to save connection."

/-- The message thrown by checkSetup on a non-2xx response, App.tsx
line 268. -/
def checkErrorMessage (body : Option ErrorBody) : String :=
  surfacedError body "Check failed."

/-- The message thrown by collectSnapshot on a non-2xx response, App.tsx
line 290. -/
def collectErrorMessage (body : Option ErrorBody) : String :=
  surfacedError body "Snapshot failed."

/-- The message thrown by resetCredentials (PATCH) on a non-2xx response,
App.tsx line 311. -/
def patchErrorMessage (body : Option ErrorBody) : String :=
  surfacedError body "Unable to reset credentials."

/-- Concrete snapshot for instance 1, used to instantiate hypotheses. -/
def snapshotA : Snapshot := ⟨1, 1, 100, []⟩

/-- Concrete snapshot for instance 2, used to instantiate hypotheses. -/
def snapshotB : Snapshot := ⟨2, 2, 50, []⟩

/-- Concrete setup state for instance 1, used to instantiate hypotheses. -/
def stateA : SetupState := ⟨1, 1, some 150003, true, true, true, 100⟩

/-- Concrete setup state for instance 2, used to instantiate hypotheses. -/
def stateB : SetupState := ⟨2, 2, some 140000, true, false, false, 60⟩

/-- Looking up a key after appending one entry at the end: the old binding
wins when present, the new entry is found otherwise. -/
theorem lookup_append_single {α : Type} (l : List (Nat × α)) (k k' : Nat) (v : α) :
    List.lookup k (l ++ [(k', v)]) =
      match List.lookup k l with
      | some w => some w
      | none => if k == k' then some v else none := by
  induction l with
  | nil =>
    simp only [List.nil_append, List.lookup]
    cases k == k' <;> rfl
  | cons p rest ih =>
    rcases p with ⟨k0, v0⟩
    by_cases h : k == k0 <;> simp [List.lookup, h, ih]

/-- The record built by the insert-if-absent loop maps each key to the first
element of the data list carrying that key, with existing bindings of the
accumulator taking precedence. -/
theorem lookup_foldl_firstByKey {α : Type} (key : α → Nat) (data : List α)
    (acc : List (Nat × α)) (k : Nat) :
    List.lookup k (data.foldl (firstByKey key) acc) =
      match List.lookup k acc with
      | some w => some w
      | none => data.find? (fun s => key s == k) := by
  induction data generalizing acc with
  | nil =>
    simp only [List.foldl_nil]
    cases h : List.lookup k acc <;> rfl
  | cons s rest ih =>
    rw [List.foldl_cons, ih]
    unfold firstByKey
    by_cases hk : (List.lookup (key s) acc).isNone
    · rw [if_pos hk, lookup_append_single]
      rcases hacc : List.lookup k acc with _ | w
      · simp only [hacc]
        by_cases hks : key s = k
        · subst hks
          simp [List.find?]
        · have h1 : (k == key s) = false := by simp [Ne.symm hks]
          have h2 : (key s == k) = false := by simp [hks]
          simp [h1, List.find?, h2]
      · simp [hacc]
    · rw [if_neg hk]
      rcases hacc : List.lookup k acc with _ | w
      · by_cases hks : key s = k
        · exfalso
          rw [hks, hacc] at hk
          simp at hk
        · have h2 : (key s == k) = false := by simp [hks]
          simp [hacc, List.find?, h2]
      · simp [hacc]

/-- The record built by loadSnapshots or loadSetupStates maps each key to
the first element of the response with that key. -/
theorem lookup_buildRecord {α : Type} (key : α → Nat) (data : List α) (k : Nat) :
    List.lookup k (buildRecord key data) = data.find? (fun s => key s == k) := by
  rw [buildRecord, lookup_foldl_firstByKey]
  rfl

/-- A lookup misses exactly when the key is absent from the association
list. -/
theorem lookup_eq_none_iff {α : Type} (l : List (Nat × α)) (k : Nat) :
    List.lookup k l = none ↔ k ∉ l.map Prod.fst := by
  induction l with
  | nil => simp [List.lookup]
  | cons p rest ih =>
    rcases p with ⟨k0, v0⟩
    cases h : k == k0
    · have hne : k ≠ k0 := by simpa using h
      simp [List.lookup, h, ih, hne]
    · have heq : k = k0 := by simpa using h
      simp [List.lookup, h, heq]

/-- The insert-if-absent loop never duplicates a key. -/
theorem nodupKeys_foldl_firstByKey {α : Type} (key : α → Nat) (data : List α)
    (acc : List (Nat × α)) (hacc : (acc.map Prod.fst).Nodup) :
    ((data.foldl (firstByKey key) acc).map Prod.fst).Nodup := by
  induction data generalizing acc with
  | nil => simpa using hacc
  | cons s rest ih =>
    rw [List.foldl_cons]
    apply ih
    unfold firstByKey
    split
    · rename_i h
      rw [List.map_append]
      apply List.Nodup.append hacc (by simp)
      intro x hx hy
      simp at hy
      subst hy
      rw [Option.isNone_iff_eq_none, lookup_eq_none_iff] at h
      exact h hx
    · exact hacc

/-- Looking up a key after a keyed assignment: the assigned key now maps to
the new value and every other key is untouched. -/
theorem lookup_assocSet {α : Type} (l : List (Nat × α)) (k k' : Nat) (v : α) :
    List.lookup k' (assocSet k v l) = if k' == k then some v else List.lookup k' l := by
  induction l with
  | nil =>
    simp only [assocSet]
    cases h : k' == k <;> simp [List.lookup, h]
  | cons p rest ih =>
    rcases p with ⟨k0, v0⟩
    rw [assocSet]
    by_cases h0 : k0 == k
    · have hk0 : k0 = k := by simpa using h0
      subst hk0
      rw [if_pos (by simp)]
      cases h' : k' == k0 <;> simp [List.lookup, h']
    · rw [if_neg h0]
      by_cases h' : k' == k0
      · have hk : k' = k0 := by simpa using h'
        subst hk
        have hne : (k' == k) = false := by
          cases hkk : k' == k
          · rfl
          · exact absurd (by simpa using hkk) (by simpa using h0)
        simp [List.lookup, hne]
      · have hf : (k' == k0) = false := by simpa using Bool.eq_false_iff.mpr h'
        simp [List.lookup, hf, ih]

/-- The grouped record built by the push loop maps each key to the
accumulator content followed by the data elements with that key, in
response order. -/
theorem lookup_foldl_pushByKey {α : Type} (key : α → Nat) (data : List α)
    (acc : List (Nat × List α)) (k : Nat) :
    (List.lookup k (data.foldl (pushByKey key) acc)).getD [] =
      (List.lookup k acc).getD [] ++ data.filter (fun s => key s == k) := by
  induction data generalizing acc with
  | nil => simp
  | cons s rest ih =>
    rw [List.foldl_cons, ih]
    unfold pushByKey
    rw [lookup_assocSet]
    by_cases h : key s = k
    · subst h
      rw [if_pos (by simp), List.filter_cons_of_pos (by simp)]
      simp
    · have h1 : (k == key s) = false := by simp [Ne.symm h]
      have h2 : (key s == k) = false := by simp [h]
      rw [if_neg (by simp [h1]), List.filter_cons_of_neg (by simp [h2])]

/-- The group stored under a key is exactly the sublist of the data with
that key, in response order. -/
theorem lookup_groupByKey {α : Type} (key : α → Nat) (data : List α) (k : Nat) :
    (List.lookup k (groupByKey key data)).getD [] = data.filter (fun s => key s == k) := by
  rw [groupByKey, lookup_foldl_pushByKey]
  rfl

/-- Mapping a function over the values of an association list commutes with
lookup. -/
theorem lookup_map_snd {α β : Type} (f : α → β) (l : List (Nat × α)) (k : Nat) :
    List.lookup k (l.map (fun p => (p.1, f p.2))) = (List.lookup k l).map f := by
  induction l with
  | nil => rfl
  | cons p rest ih =>
    rcases p with ⟨k0, v0⟩
    cases h : k == k0 <;> simp [List.lookup, h, ih]

/-- The sort used by loadRecommendations is a permutation of its input. -/
theorem sortByScoreDesc_perm (l : List Recommendation) : (sortByScoreDesc l).Perm l :=
  List.mergeSort_perm l _

/-- The sort used by loadRecommendations yields non-increasing scores. -/
theorem sortByScoreDesc_sorted (l : List Recommendation) :
    (sortByScoreDesc l).Pairwise (fun a b => b.score ≤ a.score) := by
  have h := @List.sorted_mergeSort Recommendation (fun a b => decide (b.score ≤ a.score))
    (fun a b c hab hbc => by
      simp only [decide_eq_true_eq] at *
      exact le_trans hbc hab)
    (fun a b => by
      rcases le_total a.score b.score with h | h <;> simp [h])
    l
  refine h.imp ?_
  intro a b hab
  simpa using hab

/-- The character digitChar produces is always a decimal digit. -/
theorem isDigit_digitChar (n : Nat) : (digitChar n).isDigit = true := by
  unfold digitChar
  have h : n % 10 < 10 := Nat.mod_lt _ (by decide)
  interval_cases h : n % 10 <;> decide

/-- Every character produced by natDigitsAux is a decimal digit. -/
theorem mem_natDigitsAux (fuel n : Nat) (c : Char) (h : c ∈ natDigitsAux fuel n) :
    c.isDigit = true := by
  induction fuel generalizing n with
  | zero => cases n <;> simp [natDigitsAux] at h
  | succ fuel ih =>
    cases n with
    | zero => simp [natDigitsAux] at h
    | succ m =>
      rw [natDigitsAux] at h
      rcases List.mem_cons.mp h with h | h
      · subst h
        exact isDigit_digitChar _
      · exact ih _ h

/-- Every character produced by natDigits is a decimal digit. -/
theorem mem_natDigits (n : Nat) (c : Char) (h : c ∈ natDigits n) : c.isDigit = true := by
  unfold natDigits at h
  split at h
  · simp at h
    subst h
    decide
  · exact mem_natDigitsAux n n c (List.mem_reverse.mp h)

/-- Grouping inserts commas and otherwise only reuses input characters. -/
theorem mem_group3Aux (l : List Char) (i : Nat) (c : Char) (h : c ∈ group3Aux l i) :
    c ∈ l ∨ c = ',' := by
  induction l generalizing i with
  | nil => simp [group3Aux] at h
  | cons a rest ih =>
    rw [group3Aux] at h
    simp only [List.mem_append, List.mem_cons] at h
    rcases h with h | h | h
    · split at h <;> simp_all
    · subst h
      exact Or.inl (List.mem_cons_self _ _)
    · rcases ih (i + 1) h with h | h
      · exact Or.inl (List.mem_cons_of_mem _ h)
      · exact Or.inr h

/-- Every character of a grouped digit rendering is a digit or a comma. -/
theorem mem_groupedDigitsList (n : Nat) (c : Char) (h : c ∈ groupedDigitsList n) :
    c.isDigit = true ∨ c = ',' := by
  unfold groupedDigitsList at h
  rcases mem_group3Aux _ _ _ (List.mem_reverse.mp h) with h | h
  · exact Or.inl (mem_natDigits n c (List.mem_reverse.mp h))
  · exact Or.inr h

/-- C1: for every SetupInfo result returned by the check_setup operation,
the ready flag equals the conjunction of the preload_ok flag and the
ext_created flag. -/
theorem checkSetup_ready_eq_preload_and_ext (p : SetupProbe) :
    (checkSetup p).ready = ((checkSetup p).preload_ok && (checkSetup p).ext_created) := by
  rcases p with ⟨conn, perm, v, pre, ext, params⟩
  cases conn <;> cases perm <;> cases pre <;> cases ext <;> rfl

/-- C2: when the snapshots endpoint returns at most one snapshot per
instance id, as its contract prescribes, the snapshot loadSnapshots selects
for display for each instance id is the one with the most recent
captured_at among that instance id's snapshots in the list. -/
theorem loadSnapshots_selects_most_recent (data : List Snapshot)
    (huniq : ∀ s ∈ data, ∀ t ∈ data, s.«instance» = t.«instance» → s = t)
    (i : Nat) (s : Snapshot)
    (hsel : List.lookup i (loadSnapshots data) = some s) :
    s ∈ data ∧ s.«instance» = i ∧
      ∀ t ∈ data, t.«instance» = i → t.captured_at ≤ s.captured_at := by
  rw [loadSnapshots, lookup_buildRecord] at hsel
  have hmem := List.mem_of_find?_eq_some hsel
  have hpred := List.find?_some hsel
  have hinst : s.«instance» = i := by simpa using hpred
  refine ⟨hmem, hinst, ?_⟩
  intro t ht hti
  have hst : s = t := huniq s hmem t ht (by rw [hinst, hti])
  rw [← hst]

/-- C2 witness: the theorem instantiated on a concrete two-instance
response. -/
theorem loadSnapshots_selects_most_recent_witness :
    snapshotA ∈ [snapshotA, snapshotB] ∧ snapshotA.«instance» = 1 ∧
      snapshotA.captured_at ≤ snapshotA.captured_at := by
  have h := loadSnapshots_selects_most_recent [snapshotA, snapshotB]
    (by decide) 1 snapshotA (by decide)
  exact ⟨h.1, h.2.1, h.2.2 snapshotA h.1 h.2.1⟩

/-- C3: loadSetupStates retains at most one SetupState per instance id, and
when the setup-states endpoint returns at most one state per instance id,
as its contract prescribes, the retained one is the latest by time for that
instance. -/
theorem loadSetupStates_unique_latest (data : List SetupState)
    (huniq : ∀ s ∈ data, ∀ t ∈ data, s.«instance» = t.«instance» → s = t) :
    ((loadSetupStates data).map Prod.fst).Nodup ∧
      ∀ i s, List.lookup i (loadSetupStates data) = some s →
        s ∈ data ∧ s.«instance» = i ∧
          ∀ t ∈ data, t.«instance» = i → t.last_checked_at ≤ s.last_checked_at := by
  constructor
  · exact nodupKeys_foldl_firstByKey _ data [] (by simp)
  · intro i s hsel
    rw [loadSetupStates, lookup_buildRecord] at hsel
    have hmem := List.mem_of_find?_eq_some hsel
    have hpred := List.find?_some hsel
    have hinst : s.«instance» = i := by simpa using hpred
    refine ⟨hmem, hinst, ?_⟩
    intro t ht hti
    have hst : s = t := huniq s hmem t ht (by rw [hinst, hti])
    rw [← hst]

/-- C3 witness: the theorem instantiated on a concrete two-instance
response. -/
theorem loadSetupStates_unique_latest_witness :
    stateA ∈ [stateA, stateB] ∧ stateA.«instance» = 1 ∧
      stateA.last_checked_at ≤ stateA.last_checked_at := by
  have h := loadSetupStates_unique_latest [stateA, stateB] (by decide)
  have h2 := h.2 1 stateA (by decide)
  exact ⟨h2.1, h2.2.1, h2.2.2 stateA h2.1 h2.2.1⟩

/-- C4: for every nonzero version number, the computed major version is the
version number integer-divided by 10000. -/
theorem pgMajorVersion_eq_div_ten_thousand (n : Int) (h : n ≠ 0) :
    pgMajorVersion (some n) = some (n / 10000) := by
  simp only [pgMajorVersion, if_neg h]
  exact congrArg some (Int.fdiv_eq_ediv n (by decide))

/-- C4 witness: 150003 yields major version 15. -/
theorem pgMajorVersion_eq_div_ten_thousand_witness :
    pgMajorVersion (some 150003) = some 15 := by
  have h := pgMajorVersion_eq_div_ten_thousand 150003 (by decide)
  rw [h]
  decide

/-- C5: for each instance id, the list loadRecommendations displays is a
permutation of that instance id's recommendations from the response, with
scores in non-increasing order. -/
theorem loadRecommendations_perm_sorted (data : List Recommendation) (i : Nat) :
    ((List.lookup i (loadRecommendations data)).getD []).Perm
        (data.filter (fun r => r.«instance» == i)) ∧
      ((List.lookup i (loadRecommendations data)).getD []).Pairwise
        (fun a b => b.score ≤ a.score) := by
  have hmap : List.lookup i (loadRecommendations data) =
      (List.lookup i (groupByKey (fun r => r.«instance») data)).map sortByScoreDesc := by
    rw [loadRecommendations, lookup_map_snd]
  have hgd : (List.lookup i (loadRecommendations data)).getD [] =
      sortByScoreDesc ((List.lookup i (groupByKey (fun r => r.«instance») data)).getD []) := by
    rw [hmap]
    cases List.lookup i (groupByKey (fun r => r.«instance») data)
    · simp [sortByScoreDesc]
    · simp
  rw [hgd, lookup_groupByKey]
  exact ⟨sortByScoreDesc_perm _, sortByScoreDesc_sorted _⟩

/-- C6: the snapshot table renders at most the first 8 rows of the ordered
query_stats sequence, a prefix of length min 8 n, while the snapshot value
itself keeps the full fetched row set. -/
theorem displayedQueryStats_first_eight (snap : Snapshot) :
    displayedQueryStats snap <+: snap.query_stats ∧
      (displayedQueryStats snap).length = min 8 snap.query_stats.length := by
  constructor
  · exact List.take_prefix 8 _
  · exact List.length_take 8 _

/-- C7: for each of the create, check_setup, collect and patch requests,
the surfaced error message on a non-2xx response is the detail field of the
parsed body when present, and the fixed operation-specific fallback
sentence otherwise. -/
theorem errorMessage_detail_or_fallback (body : Option ErrorBody) :
    createErrorMessage body = (body.bind ErrorBody.detail).getD "Unable to save connection." ∧
      checkErrorMessage body = (body.bind ErrorBody.detail).getD "Check failed." ∧
      collectErrorMessage body = (body.bind ErrorBody.detail).getD "Snapshot failed." ∧
      patchErrorMessage body = (body.bind ErrorBody.detail).getD "Unable to reset credentials." := by
  rcases body with _ | ⟨d⟩
  · exact ⟨rfl, rfl, rfl, rfl⟩
  · rcases d with _ | d <;> exact ⟨rfl, rfl, rfl, rfl⟩

/-- C8: pgConfigName returns the constant string for every input, null
included; the version conditional in the source has identical branches. -/
theorem pgConfigName_constant (major : Option Int) :
    pgConfigName major = "postgresql.conf" := by
  rcases major with _ | m
  · rfl
  · by_cases h : m = 0 <;> by_cases h2 : 12 ≤ m <;> simp [pgConfigName, h, h2]

/-- C9: pgMajorVersion returns null for null, undefined and 0 inputs, and
a non-null major version for every nonzero numeric input. -/
theorem pgMajorVersion_falsy_null :
    pgMajorVersion none = none ∧ pgMajorVersion (some 0) = none ∧
      ∀ n : Int, n ≠ 0 → (pgMajorVersion (some n)).isSome = true := by
  refine ⟨rfl, rfl, ?_⟩
  intro n hn
  simp [pgMajorVersion, hn]

/-- C9 witness: a nonzero version number yields a non-null major version. -/
theorem pgMajorVersion_falsy_null_witness :
    (pgMajorVersion (some 150003)).isSome = true :=
  pgMajorVersion_falsy_null.2.2 150003 (by decide)

/-- C10: formatNumber and formatMs are total over optional inputs: null and
undefined render as the em-dash placeholder, every number renders as a
string of digits, commas and a sign, and every duration gains the unit
suffix and never renders as the placeholder. -/
theorem formatters_total_placeholder :
    formatNumber none = "—" ∧ formatMs none = "—" ∧
      (∀ v : Int, ((formatNumber (some v)).data.all
          (fun c => c.isDigit || c == ',' || c == '-')) = true) ∧
      (∀ q : ℚ, " ms".data <:+ (formatMs (some q)).data ∧ formatMs (some q) ≠ "—") := by
  refine ⟨rfl, rfl, ?_, ?_⟩
  · intro v
    rw [List.all_eq_true]
    intro c hc
    have hc2 : c ∈ (if v < 0 then ['-'] else []) ++ groupedDigitsList v.natAbs := hc
    rcases List.mem_append.mp hc2 with h | h
    · split at h
      · simp at h
        subst h
        decide
      · simp at h
    · rcases mem_groupedDigitsList _ _ h with h | h
      · simp [h]
      · subst h
        decide
  · intro q
    constructor
    · show " ms".data <:+ (toFixed1 q ++ " ms").data
      rw [String.data_append]
      exact List.suffix_append _ _
    · intro hEq
      have hlen : (formatMs (some q)).length = ("—" : String).length :=
        congrArg String.length hEq
      rw [show formatMs (some q) = toFixed1 q ++ " ms" from rfl,
        String.length_append] at hlen
      have h3 : (" ms" : String).length = 3 := by decide
      have h1 : ("—" : String).length = 1 := by decide
      omega

end PgOkache
